import Mathlib

/-!
Verification development for the three-view wireframe reconstruction core
(crates cadconvert-algo and cadconvert-core): view separation
(view_separation.rs), planar topology (topology.rs), 3D lifting and edge
selection (reconstruction.rs) and the STEP edge emission (step_writer.rs).

Modelling conventions.

* `f64` is modelled by the type `F` below: an exact rational (`Rat`) payload
  together with the three IEEE-754 special values NaN, +inf and -inf.
  Finite arithmetic is exact (no rounding, no overflow to infinity); the
  special values propagate through arithmetic and comparisons exactly as in
  IEEE-754 (`NaN` is absorbing for arithmetic and falsifies every ordered
  comparison; `inf - inf = NaN`, `0 * inf = NaN`, and so on).  A single
  zero is used; the sign of zero is not observable in any comparison the
  modelled code performs.
* Square roots are never materialised.  Every use of `f64::sqrt`/`norm`/
  `hypot` in the source is immediately consumed by an order comparison
  against a nonnegative constant or against another such root; since
  `sqrt` is strictly monotone on `[0, +inf]` and maps NaN to NaN, each such
  comparison is modelled by the same comparison of the squared quantities
  (with the constant squared).  This is observationally identical,
  including for the special values.
* Rust `Vec::sort_by` with a `partial_cmp(..).unwrap()` comparator is
  modelled by a stable insertion sort in the `Option` monad
  (`insertionSortOpt`): `none` models the `unwrap` panic on an
  incomparable (NaN) pair.  Rust uses insertion sort for short slices and
  a stable merge sort for longer ones; on inputs where every executed
  comparison is defined the two agree (both are stable), and no claim
  below depends on which comparison of an incomparable pair is reached
  first.
* Functions that can panic are modelled in `Option` (`none` = panic);
  fallible functions return `Except String` inside that.
-/

set_option allowUnsafeReducibility true
attribute [semireducible] Rat.add Rat.mul Rat.div Rat.inv Rat.sub Rat.neg

/-- Model of `f64`: exact rational finite values plus NaN and the two
infinities. -/
inductive F where
  | nan : F
  | inf : F
  | ninf : F
  | fin : ℚ → F
deriving DecidableEq, Repr

namespace F

/-- `f64::is_finite`. -/
def isFinite : F → Bool
  | fin _ => true
  | _ => false

/-- IEEE negation. -/
def neg : F → F
  | nan => nan
  | inf => ninf
  | ninf => inf
  | fin q => fin (-q)

/-- IEEE addition (finite part exact). -/
def add : F → F → F
  | nan, _ => nan
  | _, nan => nan
  | inf, ninf => nan
  | ninf, inf => nan
  | inf, _ => inf
  | _, inf => inf
  | ninf, _ => ninf
  | _, ninf => ninf
  | fin a, fin b => fin (a + b)

/-- IEEE subtraction, as `a + (-b)` (exact on finite values). -/
def sub (a b : F) : F := add a (neg b)

/-- IEEE multiplication (finite part exact; `0 * inf = NaN`). -/
def mul : F → F → F
  | nan, _ => nan
  | _, nan => nan
  | inf, inf => inf
  | inf, ninf => ninf
  | ninf, inf => ninf
  | ninf, ninf => inf
  | inf, fin q => if q = 0 then nan else if 0 < q then inf else ninf
  | fin q, inf => if q = 0 then nan else if 0 < q then inf else ninf
  | ninf, fin q => if q = 0 then nan else if 0 < q then ninf else inf
  | fin q, ninf => if q = 0 then nan else if 0 < q then ninf else inf
  | fin a, fin b => fin (a * b)

/-- IEEE division (single zero: the sign of a zero numerator or
denominator is not modelled, and no comparison in the modelled code can
observe it). -/
def div : F → F → F
  | nan, _ => nan
  | _, nan => nan
  | inf, inf => nan
  | inf, ninf => nan
  | ninf, inf => nan
  | ninf, ninf => nan
  | inf, fin q => if 0 ≤ q then inf else ninf
  | ninf, fin q => if 0 ≤ q then ninf else inf
  | fin _, inf => fin 0
  | fin _, ninf => fin 0
  | fin a, fin b =>
    if b = 0 then (if a = 0 then nan else if 0 < a then inf else ninf)
    else fin (a / b)

/-- IEEE `<`: false whenever either operand is NaN. -/
def lt : F → F → Bool
  | nan, _ => false
  | _, nan => false
  | ninf, ninf => false
  | ninf, _ => true
  | _, ninf => false
  | inf, _ => false
  | _, inf => true
  | fin a, fin b => decide (a < b)

/-- IEEE `≤`: false whenever either operand is NaN. -/
def le : F → F → Bool
  | nan, _ => false
  | _, nan => false
  | ninf, _ => true
  | _, ninf => false
  | _, inf => true
  | inf, _ => false
  | fin a, fin b => decide (a ≤ b)

/-- IEEE absolute value. -/
def abs : F → F
  | nan => nan
  | inf => inf
  | ninf => inf
  | fin q => fin |q|

/-- Rust `f64::partial_cmp`: `none` exactly when an operand is NaN. -/
def pcmp : F → F → Option Ordering
  | nan, _ => none
  | _, nan => none
  | ninf, ninf => some Ordering.eq
  | ninf, _ => some Ordering.lt
  | _, ninf => some Ordering.gt
  | inf, inf => some Ordering.eq
  | inf, _ => some Ordering.gt
  | _, inf => some Ordering.lt
  | fin a, fin b =>
    some (if a < b then Ordering.lt else if b < a then Ordering.gt else Ordering.eq)

/-- Rust `f64::min`: ignores a NaN operand (returns the other one). -/
def rmin : F → F → F
  | nan, b => b
  | a, nan => a
  | ninf, _ => ninf
  | _, ninf => ninf
  | inf, b => b
  | a, inf => a
  | fin a, fin b => fin (min a b)

/-- Rust `f64::max`: ignores a NaN operand (returns the other one). -/
def rmax : F → F → F
  | nan, b => b
  | a, nan => a
  | inf, _ => inf
  | _, inf => inf
  | ninf, b => b
  | a, ninf => a
  | fin a, fin b => fin (max a b)

end F

/-- 2D point / vector over `F` (models `nalgebra::Point2<f64>`,
`Vector2<f64>` and `cadconvert_core::geom::Vec2`, which all carry the same
two `f64`s). -/
structure FP2 where
  x : F
  y : F
deriving DecidableEq, Repr

namespace FP2

def add (a b : FP2) : FP2 := ⟨F.add a.x b.x, F.add a.y b.y⟩

def sub (a b : FP2) : FP2 := ⟨F.sub a.x b.x, F.sub a.y b.y⟩

/-- Scalar multiple `v * t` (componentwise IEEE product). -/
def smul (v : FP2) (t : F) : FP2 := ⟨F.mul v.x t, F.mul v.y t⟩

/-- Squared Euclidean norm `x*x + y*y`.  Every `norm()` in the source is
consumed by an order comparison; see the header note on square roots. -/
def sqNorm (v : FP2) : F := F.add (F.mul v.x v.x) (F.mul v.y v.y)

/-- Both coordinates finite. -/
def finite (v : FP2) : Bool := v.x.isFinite && v.y.isFinite

end FP2

/-- 3D point over `F` (models `nalgebra::Point3<f64>`). -/
structure FP3 where
  x : F
  y : F
  z : F
deriving DecidableEq, Repr

namespace FP3

def sub (a b : FP3) : FP3 := ⟨F.sub a.x b.x, F.sub a.y b.y, F.sub a.z b.z⟩

def sqNorm (v : FP3) : F :=
  F.add (F.add (F.mul v.x v.x) (F.mul v.y v.y)) (F.mul v.z v.z)

end FP3

/-- `perp_dot` of topology.rs: `v1.x * v2.y - v1.y * v2.x`. -/
def perpDot (v1 v2 : FP2) : F := F.sub (F.mul v1.x v2.y) (F.mul v1.y v2.x)

/-- Stable insertion of `x` into `l` using a partial comparator; `none`
models the panic of `partial_cmp(..).unwrap()` on an incomparable pair.
`x` is placed before the first element `y` with `cmp y x = gt`, after all
elements less than or equal to it (stability). -/
def insOpt {α : Type} (cmp : α → α → Option Ordering) (x : α) : List α → Option (List α)
  | [] => some [x]
  | y :: ys =>
    match cmp y x with
    | none => none
    | some Ordering.gt => some (x :: y :: ys)
    | some _ => (insOpt cmp x ys).map (fun l => y :: l)

/-- Stable sort with a partial comparator (models Rust `sort_by` with an
`unwrap`ping comparator; see the header note). -/
def insertionSortOpt {α : Type} (cmp : α → α → Option Ordering) (l : List α) : Option (List α) :=
  l.foldlM (fun acc x => insOpt cmp x acc) []

/-- Stable insertion with a total boolean `le`: `x` goes after every `y`
with `le y x` (ties keep the earlier element first). -/
def insertIn {α : Type} (le : α → α → Bool) (x : α) : List α → List α
  | [] => [x]
  | y :: ys => if le y x then y :: insertIn le x ys else x :: y :: ys

/-- Stable sort with a total boolean `le` (models Rust's stable
`sort_by`/`sort_by_key` where the comparator is total on the list at
hand). -/
def insertionSortT {α : Type} (le : α → α → Bool) (l : List α) : List α :=
  l.foldl (fun acc x => insertIn le x acc) []

/-! ## Data model (cadconvert-core/src/model.rs and cadconvert-algo/src/structs.rs) -/

/-- model.rs `EntityKind`. -/
inductive EntityKind where
  | Unknown | Object | Hidden | Center | Dimension | Text | Hatch
deriving DecidableEq, Repr

/-- model.rs `Style` (u64 ids and i16 colors become `Nat`/`Int`). -/
structure Style where
  layer : Option String
  linetype : Option String
  color_index : Option Int
deriving DecidableEq, Repr

/-- model.rs `PolylineVertex2D`. -/
structure PolylineVertex2D where
  pos : FP2
  bulge : F
deriving DecidableEq, Repr

/-- model.rs `Primitive2D` (all five variants, with their payloads). -/
inductive Primitive2D where
  | Line (a b : FP2)
  | Circle (center : FP2) (radius : F)
  | Arc (center : FP2) (radius : F) (start_angle_deg end_angle_deg : F)
  | Polyline (vertices : List PolylineVertex2D) (closed : Bool)
  | CubicBezier (p0 p1 p2 p3 : FP2)
deriving DecidableEq, Repr

/-- model.rs `Entity2D`. -/
structure Entity2D where
  id : Nat
  kind : EntityKind
  primitive : Primitive2D
  style : Style
deriving DecidableEq, Repr

/-- model.rs `Units` (named `UnitsTag` here: `Units` is taken by the
library). -/
inductive UnitsTag where
  | Unknown | Inches | Millimeters | Centimeters | Meters
deriving DecidableEq, Repr

/-- model.rs `TextEntity` (the Rust field `at` is spelled `at_`: `at` is a
Lean keyword). -/
structure TextEntity where
  id : Nat
  text : String
  at_ : FP2
  height : Option F
  style : Style
deriving DecidableEq, Repr

/-- model.rs `DimensionEntity`. -/
structure DimensionEntity where
  id : Nat
  raw_type : Option Int
  text : Option String
  measurement : Option F
  style : Style
deriving DecidableEq, Repr

/-- model.rs `Drawing2D`. -/
structure Drawing2D where
  units : UnitsTag
  entities : List Entity2D
  dims : List DimensionEntity
  texts : List TextEntity
deriving DecidableEq, Repr

/-- structs.rs `ViewPlane`. -/
inductive ViewPlane where
  | XY | XZ | YZ
deriving DecidableEq, Repr

/-- structs.rs `Vertex2D`. -/
structure Vertex2D where
  id : Nat
  point : FP2
deriving DecidableEq, Repr

/-- structs.rs `Edge2D` (the Rust field `end` is spelled `end_`: `end` is a
Lean keyword). -/
structure Edge2D where
  id : Nat
  start : Nat
  end_ : Nat
  original_entity_id : Option Nat
deriving DecidableEq, Repr

/-- structs.rs `View2D`. -/
structure View2D where
  plane : ViewPlane
  raw_entities : List Entity2D
  vertices : List Vertex2D
  edges : List Edge2D
deriving DecidableEq, Repr

/-- structs.rs `View2D::new`. -/
def View2D.new (plane : ViewPlane) : View2D := ⟨plane, [], [], []⟩

/-- structs.rs `LambdaRow`. -/
structure LambdaRow where
  p3 : FP3
  v_xy_id : Nat
  v_xz_id : Nat
  v_yz_id : Nat
deriving DecidableEq, Repr

/-- structs.rs `ThetaEdge`. -/
structure ThetaEdge where
  start_lambda_idx : Nat
  end_lambda_idx : Nat
deriving DecidableEq, Repr

/-! ## Planar topology (cadconvert-algo/src/topology.rs) -/

/-- topology.rs `EPSILON = 1e-4`. -/
def EPSILON : ℚ := 1 / 10000

/-- `EPSILON` squared, used wherever the source compares a Euclidean norm
against `EPSILON` (see the header note on square roots). -/
def EPS2 : ℚ := EPSILON * EPSILON

/-- topology.rs `RawSegment`. -/
structure RawSegment where
  p1 : FP2
  p2 : FP2
  original_id : Nat
deriving DecidableEq, Repr

/-- topology.rs `extract_segments`, polyline case: segment `i` runs from
vertex `i` to vertex `i+1`, or wraps to vertex 0 when the polyline is
closed; an open polyline contributes no segment from its last vertex. -/
def polylineSegs (vs : List PolylineVertex2D) (closed : Bool) (oid : Nat) : List RawSegment :=
  (List.range vs.length).filterMap fun i =>
    match vs[i]? with
    | none => none
    | some v1 =>
      match (if i + 1 < vs.length then vs[i+1]? else if closed then vs[0]? else none) with
      | none => none
      | some v2 => some ⟨v1.pos, v2.pos, oid⟩

/-- topology.rs `extract_segments`: lines and polylines only. -/
def extractSegments (entities : List Entity2D) : List RawSegment :=
  entities.flatMap fun ent =>
    match ent.primitive with
    | Primitive2D.Line a b => [⟨a, b, ent.id⟩]
    | Primitive2D.Polyline vs closed => polylineSegs vs closed ent.id
    | _ => []

/-- topology.rs `intersect_segment_segment` (the `perp` formulation; the
guard and the two parameter-range tests are IEEE comparisons, so any NaN
produces `None`). -/
def intersectSegSeg (s1 s2 : RawSegment) : Option FP2 :=
  let p := s1.p1
  let r := FP2.sub s1.p2 s1.p1
  let q := s2.p1
  let s := FP2.sub s2.p2 s2.p1
  let rxs := perpDot r s
  let qmp := FP2.sub q p
  if F.lt (F.abs rxs) (F.fin EPSILON) then none
  else
    let t := F.div (perpDot qmp s) rxs
    let u := F.div (perpDot qmp r) rxs
    if F.le (F.fin (-EPSILON)) t && F.le t (F.fin (1 + EPSILON)) &&
       F.le (F.fin (-EPSILON)) u && F.le u (F.fin (1 + EPSILON)) then
      some (FP2.add p (FP2.smul r t))
    else none

/-- The intersection points accumulated for segment `m` by the all-pairs
loop of `build_topology`, in push order: pairs `(i, m)` with `i < m` come
first (outer loop iterations `i = 0, 1, ...`), then pairs `(m, j)` with
`j > m` (inner loop of outer iteration `m`).  The point of a pair is the
one value `intersect_segment_segment(&segments[i], &segments[j])`
computed once and pushed under both indices. -/
def splitPointsFor (segs : List RawSegment) (m : Nat) : List FP2 :=
  ((List.range m).filterMap fun i =>
    match segs[i]?, segs[m]? with
    | some si, some sm => intersectSegSeg si sm
    | _, _ => none)
  ++ ((List.range' (m+1) (segs.length - (m+1))).filterMap fun j =>
    match segs[m]?, segs[j]? with
    | some sm, some sj => intersectSegSeg sm sj
    | _, _ => none)

/-- Rust `Vec::dedup_by(pred)`: keeps the first element of each run,
comparing each later element against the last RETAINED one (the source
passes the later element as `a` and the retained one as `b`). -/
def dedupByKeep {α : Type} (pred : α → α → Bool) : List α → List α
  | [] => []
  | x :: xs => x :: dedupGo pred x xs
where
  dedupGo (pred : α → α → Bool) (last : α) : List α → List α
    | [] => []
    | y :: ys => if pred y last then dedupGo pred last ys else y :: dedupGo pred y ys

/-- `windows(2)` of the split loop: one sub-segment per consecutive pair
whose length exceeds `EPSILON`. -/
def windowSegs (pts : List FP2) (oid : Nat) : List RawSegment :=
  (pts.zip pts.tail).filterMap fun w =>
    if F.lt (F.fin EPS2) (FP2.sqNorm (FP2.sub w.1 w.2)) then
      some ⟨w.1, w.2, oid⟩
    else none

/-- The split stage for segment `m` (step 2 of `build_topology`): segments
with no recorded intersection pass through; otherwise the points plus the
two endpoints are sorted by distance from `p1` (a `partial_cmp` unwrap:
`none` = panic), deduplicated within `EPSILON`, and re-emitted as
sub-segments. -/
def splitOne (segs : List RawSegment) (m : Nat) (seg : RawSegment) : Option (List RawSegment) :=
  let pts0 := splitPointsFor segs m
  if pts0 = [] then some [seg]
  else do
    let pts1 := pts0 ++ [seg.p1, seg.p2]
    let sorted ← insertionSortOpt
      (fun a b => F.pcmp (FP2.sqNorm (FP2.sub a seg.p1)) (FP2.sqNorm (FP2.sub b seg.p1))) pts1
    let dd := dedupByKeep
      (fun a b => F.lt (FP2.sqNorm (FP2.sub a b)) (F.fin EPS2)) sorted
    some (windowSegs dd seg.original_id)

/-- All segments split (the `final_segments` vector, in order). -/
def finalSegsOf (segs : List RawSegment) : Option (List RawSegment) :=
  (segs.enum.mapM fun p => splitOne segs p.1 p.2).map List.flatten

/-- The `get_point_id` closure of `build_topology`: linear snap search
within `EPSILON`, appending when no existing vertex is close enough.
Returns the (possibly extended) vertex list and the index. -/
def getPointId (p : FP2) (pts : List FP2) : List FP2 × Nat :=
  match pts.findIdx? (fun q => F.lt (FP2.sqNorm (FP2.sub p q)) (F.fin EPS2)) with
  | some idx => (pts, idx)
  | none => (pts ++ [p], pts.length)

/-- Step 3 of `build_topology` for one final segment: snap both endpoints
(the second lookup sees a vertex just added by the first) and emit an edge
when the two ids differ.  The edge id is temporary (re-numbered densely
afterwards), so 0 is stored here. -/
def snapStep (st : List FP2 × List Edge2D) (seg : RawSegment) : List FP2 × List Edge2D :=
  let r1 := getPointId seg.p1 st.1
  let r2 := getPointId seg.p2 r1.1
  if r1.2 ≠ r2.2 then
    (r2.1, st.2 ++ [⟨0, r1.2, r2.2, some seg.original_id⟩])
  else (r2.1, st.2)

/-- Snap and graph construction over all final segments. -/
def snapAll (segs : List RawSegment) : List FP2 × List Edge2D :=
  segs.foldl snapStep ([], [])

/-- topology.rs `build_topology`: `none` models a panic (the sort unwrap);
otherwise the view with `vertices` (dense ids = indices) and densely
re-numbered `edges` populated. -/
def buildTopology (view : View2D) : Option View2D :=
  match finalSegsOf (extractSegments view.raw_entities) with
  | none => none
  | some finals =>
    some { view with
      vertices := (snapAll finals).1.enum.map fun p => ⟨p.1, p.2⟩
      edges := (snapAll finals).2.enum.map fun p => { p.2 with id := p.1 } }

/-! ## Concrete topology inputs (for counterexamples and scenario checks) -/

/-- A plain object-line entity. -/
def mkLineEnt (id : Nat) (x1 y1 x2 y2 : ℚ) : Entity2D :=
  ⟨id, EntityKind.Object,
    Primitive2D.Line ⟨F.fin x1, F.fin y1⟩ ⟨F.fin x2, F.fin y2⟩,
    ⟨none, none, none⟩⟩

/-- Scenario 3 of the spec: the two crossing segments (0,0)–(10,10) and
(0,10)–(10,0) in one view. -/
def crossView : View2D :=
  ⟨ViewPlane.XY, [mkLineEnt 1 0 0 10 10, mkLineEnt 2 0 10 10 0], [], []⟩

/-- Two coincident copies of the same segment in one view. -/
def dupView : View2D :=
  ⟨ViewPlane.XY, [mkLineEnt 1 0 0 1 0, mkLineEnt 2 0 0 1 0], [], []⟩

/-- One segment both of whose endpoints have a NaN x coordinate. -/
def nanSegView : View2D :=
  ⟨ViewPlane.XY,
    [⟨1, EntityKind.Object,
      Primitive2D.Line ⟨F.nan, F.fin 0⟩ ⟨F.nan, F.fin 1⟩,
      ⟨none, none, none⟩⟩], [], []⟩

/-! ## 3D reconstruction (cadconvert-algo/src/reconstruction.rs) -/

/-- reconstruction.rs `MATCH_TOLERANCE = 1.0`. -/
def MATCH_TOLERANCE : ℚ := 1

/-- reconstruction.rs `get_centroid`: the origin for an empty vertex list,
otherwise the componentwise mean. -/
def getCentroid (view : View2D) : FP2 :=
  if view.vertices.isEmpty then ⟨F.fin 0, F.fin 0⟩
  else
    let sum := view.vertices.foldl (fun s v => FP2.add s v.point) ⟨F.fin 0, F.fin 0⟩
    let n := F.fin (view.vertices.length : ℚ)
    ⟨F.div sum.x n, F.div sum.y n⟩

/-- Raw-x sort key.  `build_lambda_optimized` sorts the XZ and YZ vertex
lists by `point.x` with `partial_cmp(..).unwrap()`; both lists are
filtered to finite coordinates first, so the comparator is total there
and the sort is the stable sort by the rational payload of `point.x`
(the default 0 for a non-finite value is never consulted). -/
def xKey (v : Vertex2D) : ℚ :=
  match v.point.x with
  | F.fin q => q
  | _ => 0

/-- The filtered, sorted candidate list (`v_xz_sorted` / `v_yz_sorted`). -/
def sortedFiniteByX (vs : List Vertex2D) : List Vertex2D :=
  insertionSortT (fun a b => decide (xKey a ≤ xKey b))
    (vs.filter fun v => v.point.x.isFinite && v.point.y.isFinite)

/-- The candidate window of `build_lambda_optimized`: `partition_point`
(the count of leading vertices with `x < target - MATCH_TOLERANCE`; the
list is sorted, so the binary search returns exactly this count, also
when the target is NaN — the predicate is then everywhere false — or
infinite), then iteration until the first vertex with
`x > target + MATCH_TOLERANCE` (no break ever fires when the bound is
NaN, exactly as in the source). -/
def xWindow (sorted : List Vertex2D) (target : F) : List Vertex2D :=
  let lo := F.sub target (F.fin MATCH_TOLERANCE)
  let hi := F.add target (F.fin MATCH_TOLERANCE)
  let start := (sorted.takeWhile fun v => F.lt v.point.x lo).length
  (sorted.drop start).takeWhile fun v => !F.lt hi v.point.x

/-- reconstruction.rs `build_lambda_optimized`.  Note that only the XZ and
YZ vertex lists are filtered for finiteness; the XY vertices are iterated
unfiltered. -/
def buildLambda (v_xy v_xz v_yz : View2D) (shift_xy shift_yz : FP2) : List LambdaRow :=
  let v_xz_sorted := sortedFiniteByX v_xz.vertices
  let v_yz_sorted := sortedFiniteByX v_yz.vertices
  v_xy.vertices.flatMap fun v1 =>
    let p_xy := FP2.add v1.point shift_xy
    let target_x := p_xy.x
    (xWindow v_xz_sorted target_x).flatMap fun v2 =>
      let p_xz := v2.point
      let target_yz_local_x := F.sub p_xy.y shift_yz.x
      (xWindow v_yz_sorted target_yz_local_x).filterMap fun v3 =>
        let p_yz := FP2.add v3.point shift_yz
        if F.le (F.abs (F.sub p_xz.y p_yz.y)) (F.fin MATCH_TOLERANCE) then
          some ⟨⟨p_xy.x, p_xy.y, p_xz.y⟩, v1.id, v2.id, v3.id⟩
        else none

/-- The `(min, max)`-normalised key of an unordered id pair. -/
def normPair (a b : Nat) : Nat × Nat := if a < b then (a, b) else (b, a)

/-- The per-view edge lookup set of `build_theta_optimized` (a `HashSet`
in the source; only membership is consulted, so a list is an adequate
model). -/
def edgeKeys (v : View2D) : List (Nat × Nat) :=
  v.edges.map fun e => normPair e.start e.end_

/-- The `edge_exists` closure: identical ids are accepted (the 3D edge
projects to a point), otherwise the normalised pair must be a key. -/
def edgeExists (keys : List (Nat × Nat)) (id1 id2 : Nat) : Bool :=
  if id1 = id2 then true
  else decide (normPair id1 id2 ∈ keys)

/-- The pair test of `build_theta_optimized` (XY, then XZ, then YZ;
`&&` short-circuits exactly like the source's early `continue`s). -/
def thetaOk (exy exz eyz : List (Nat × Nat)) (L1 L2 : LambdaRow) : Bool :=
  edgeExists exy L1.v_xy_id L2.v_xy_id &&
  edgeExists exz L1.v_xz_id L2.v_xz_id &&
  edgeExists eyz L1.v_yz_id L2.v_yz_id

/-- reconstruction.rs `build_theta_optimized`: all pairs `i < j` over Λ
that pass the three-view test.  The source stores the result in a
`HashSet`; the pairs here are distinct, so the list (in loop order) is a
faithful model of that set. -/
def buildTheta (lambda : List LambdaRow) (v_xy v_xz v_yz : View2D) : List ThetaEdge :=
  let exy := edgeKeys v_xy
  let exz := edgeKeys v_xz
  let eyz := edgeKeys v_yz
  (List.range lambda.length).flatMap fun i =>
    (List.range' (i+1) (lambda.length - (i+1))).filterMap fun j =>
      match lambda[i]?, lambda[j]? with
      | some L1, some L2 => if thetaOk exy exz eyz L1 L2 then some ⟨i, j⟩ else none
      | _, _ => none

/-- reconstruction.rs `build_reconstruction`: centroid alignment shifts,
then Λ and Θ. -/
def buildReconstruction (v_xy v_xz v_yz : View2D) : List LambdaRow × List ThetaEdge :=
  let center_xy := getCentroid v_xy
  let center_xz := getCentroid v_xz
  let center_yz := getCentroid v_yz
  let shift_xy : FP2 := ⟨F.sub center_xz.x center_xy.x, F.fin 0⟩
  let shift_yz : FP2 := ⟨F.sub center_xy.y center_yz.x, F.sub center_xz.y center_yz.y⟩
  let lambda := buildLambda v_xy v_xz v_yz shift_xy shift_yz
  (lambda, buildTheta lambda v_xy v_xz v_yz)

/-! ## STEP edge emission (cadconvert-algo/src/step_writer.rs)

`write_step` assigns entity ids sequentially from 10.  The header and
AP214 boilerplate consume ids 10..23, so the Λ loop starts at id 24: row
`i` gets `CARTESIAN_POINT` id `24 + 2*i` and `VERTEX_POINT` id
`24 + 2*i + 1`, and the edge loop starts at `24 + 2*|Λ|`, consuming four
ids per Θ edge (DIRECTION, VECTOR, LINE, EDGE_CURVE).  The loop `for edge
in theta` iterates the `HashSet` in an order the code does not control;
the model takes that iteration order as an explicit list.  The numeric
payload of DIRECTION/VECTOR is the chord normalised by its length (or
(1,0,0) when the length is below 1e-9); the model records the exact chord
and the degeneracy flag, from which the printed values are determined. -/

/-- First entity id after the fixed header boilerplate. -/
def STEP_GEOM_BASE : Nat := 24

/-- One emitted Θ edge: the four entity ids, the two `VERTEX_POINT`
references, the Λ index pair, the chord and the `mag > 1e-9` test
(`degenerate` is its negation, via the squared comparison). -/
structure EdgeEmit where
  dir_id : Nat
  vector_id : Nat
  line_id : Nat
  edge_id : Nat
  v1_ref : Nat
  v2_ref : Nat
  pair : Nat × Nat
  chord : FP3
  degenerate : Bool
deriving DecidableEq, Repr

/-- `(1e-9)^2`, the squared degenerate-chord threshold. -/
def CHORD_EPS2 : ℚ := 1 / 1000000000000000000

/-- The edge loop of `write_step`, with `k` counting edges already
emitted: `none` models the panic of the `point_ids[..]` / `lambda[..]`
indexing on an out-of-range Λ index. -/
def edgeSectionGo (lambda : List LambdaRow) : Nat → List ThetaEdge → Option (List EdgeEmit)
  | _, [] => some []
  | k, e :: rest =>
    match lambda[e.start_lambda_idx]?, lambda[e.end_lambda_idx]? with
    | some L1, some L2 =>
      match edgeSectionGo lambda (k + 1) rest with
      | some tail =>
        some (⟨STEP_GEOM_BASE + 2 * lambda.length + 4 * k,
          STEP_GEOM_BASE + 2 * lambda.length + 4 * k + 1,
          STEP_GEOM_BASE + 2 * lambda.length + 4 * k + 2,
          STEP_GEOM_BASE + 2 * lambda.length + 4 * k + 3,
          STEP_GEOM_BASE + 2 * e.start_lambda_idx + 1,
          STEP_GEOM_BASE + 2 * e.end_lambda_idx + 1,
          (e.start_lambda_idx, e.end_lambda_idx),
          FP3.sub L2.p3 L1.p3,
          !F.lt (F.fin CHORD_EPS2) (FP3.sqNorm (FP3.sub L2.p3 L1.p3))⟩ :: tail)
      | none => none
    | _, _ => none

/-- The whole edge section of `write_step`, for a given `HashSet`
iteration order of Θ. -/
def edgeSection (lambda : List LambdaRow) (iter : List ThetaEdge) : Option (List EdgeEmit) :=
  edgeSectionGo lambda 0 iter

/-- Ascending lexicographic order on emitted `(i, j)` pairs. -/
def pairsAscending (l : List (Nat × Nat)) : Prop :=
  List.Pairwise (fun a b => a.1 < b.1 ∨ (a.1 = b.1 ∧ a.2 < b.2)) l

/-! ## View separation (cadconvert-algo/src/view_separation.rs and
cadconvert-core/src/geom.rs) -/

/-- `pat` is a prefix of `l`. -/
def listStartsWith {α : Type} [DecidableEq α] : List α → List α → Bool
  | _, [] => true
  | [], _ :: _ => false
  | a :: as, b :: bs => decide (a = b) && listStartsWith as bs

/-- `pat` occurs as a contiguous sublist of `l` (Rust `str::contains`). -/
def listHasSub {α : Type} [DecidableEq α] : List α → List α → Bool
  | [], pat => pat.isEmpty
  | a :: as, pat => listStartsWith (a :: as) pat || listHasSub as pat

/-- Rust `str::contains` on strings. -/
def strContains (s pat : String) : Bool := listHasSub s.data pat.data

/-- Rust `to_ascii_uppercase` (`Char.toUpper` uppercases exactly the
ASCII letters). -/
def asciiUpper (s : String) : String := ⟨s.data.map Char.toUpper⟩

/-- `entity.style.layer.as_deref().unwrap_or("0").to_ascii_uppercase()`. -/
def layerOf (e : Entity2D) : String := asciiUpper (e.style.layer.getD "0")

/-- The layer-name primary path of `separate_views`: one pass over the
entities, skipping dimensions and text, assigning by the first matching
substring group and dropping entities that match none. -/
def assignEntity (acc : List Entity2D × List Entity2D × List Entity2D) (e : Entity2D) :
    List Entity2D × List Entity2D × List Entity2D :=
  if e.kind = EntityKind.Dimension ∨ e.kind = EntityKind.Text then acc
  else
    let layer := layerOf e
    if strContains layer "XY" || strContains layer "TOP" then
      (acc.1 ++ [e], acc.2.1, acc.2.2)
    else if strContains layer "XZ" || strContains layer "FRONT" then
      (acc.1, acc.2.1 ++ [e], acc.2.2)
    else if strContains layer "YZ" || strContains layer "RIGHT" || strContains layer "SIDE" then
      (acc.1, acc.2.1, acc.2.2 ++ [e])
    else acc

/-- The three layer groups (XY, XZ, YZ raw-entity lists). -/
def layerGroups (d : Drawing2D) : List Entity2D × List Entity2D × List Entity2D :=
  d.entities.foldl assignEntity ([], [], [])

/-- geom.rs `BBox2`. -/
structure BBox2 where
  min : FP2
  max : FP2
deriving DecidableEq, Repr

namespace BBox2

/-- `BBox2::empty()`: min at +inf, max at -inf. -/
def empty : BBox2 := ⟨⟨F.inf, F.inf⟩, ⟨F.ninf, F.ninf⟩⟩

/-- `BBox2::is_empty`. -/
def isEmpty (b : BBox2) : Bool := F.lt b.max.x b.min.x || F.lt b.max.y b.min.y

/-- `BBox2::include_point` (Rust `f64::min`/`max`, which ignore NaN). -/
def includePoint (b : BBox2) (p : FP2) : BBox2 :=
  ⟨⟨F.rmin b.min.x p.x, F.rmin b.min.y p.y⟩, ⟨F.rmax b.max.x p.x, F.rmax b.max.y p.y⟩⟩

/-- `BBox2::union`: an empty side yields the other box. -/
def union (a b : BBox2) : BBox2 :=
  if a.isEmpty then b
  else if b.isEmpty then a
  else ⟨⟨F.rmin a.min.x b.min.x, F.rmin a.min.y b.min.y⟩,
        ⟨F.rmax a.max.x b.max.x, F.rmax a.max.y b.max.y⟩⟩

/-- `BBox2::center`: `(min + max) * 0.5` componentwise. -/
def center (b : BBox2) : FP2 :=
  ⟨F.mul (F.add b.min.x b.max.x) (F.fin (1/2)),
   F.mul (F.add b.min.y b.max.y) (F.fin (1/2))⟩

/-- `BBox2::expand`. -/
def expand (b : BBox2) (delta : F) : BBox2 :=
  ⟨⟨F.sub b.min.x delta, F.sub b.min.y delta⟩,
   ⟨F.add b.max.x delta, F.add b.max.y delta⟩⟩

/-- The squared separation distance of `BBox2::distance_to` (the source
takes `sqrt(dx*dx + dy*dy)` and compares it with 1.0; see the header note
on square roots). -/
def sqDist (a b : BBox2) : F :=
  let dx := if F.lt a.max.x b.min.x then F.sub b.min.x a.max.x
            else if F.lt b.max.x a.min.x then F.sub a.min.x b.max.x
            else F.fin 0
  let dy := if F.lt a.max.y b.min.y then F.sub b.min.y a.max.y
            else if F.lt b.max.y a.min.y then F.sub a.min.y b.max.y
            else F.fin 0
  F.add (F.mul dx dx) (F.mul dy dy)

end BBox2

/-- model.rs `Primitive2D::bbox`. -/
def primBBox : Primitive2D → BBox2
  | Primitive2D.Line a b => (BBox2.empty.includePoint a).includePoint b
  | Primitive2D.Circle c r =>
    ⟨⟨F.sub c.x r, F.sub c.y r⟩, ⟨F.add c.x r, F.add c.y r⟩⟩
  | Primitive2D.Arc c r _ _ =>
    (BBox2.empty.includePoint ⟨F.sub c.x r, F.sub c.y r⟩).includePoint
      ⟨F.add c.x r, F.add c.y r⟩
  | Primitive2D.Polyline vs _ => vs.foldl (fun b v => b.includePoint v.pos) BBox2.empty
  | Primitive2D.CubicBezier p0 p1 p2 p3 =>
    ((((BBox2.empty.includePoint p0).includePoint p1).includePoint p2).includePoint p3)

/-- model.rs `Entity2D::bbox`. -/
def Entity2D.bbox (e : Entity2D) : BBox2 := primBBox e.primitive

/-- A proximity cluster of `separate_spatially`: expanded bounding box
plus owned entities. -/
def Cluster : Type := BBox2 × List Entity2D

instance : DecidableEq Cluster := by unfold Cluster; infer_instance

/-- The merge condition of the proximity loop: non-empty union and
separation distance below 1.0. -/
def mergeCond (a b : Cluster) : Bool :=
  !(BBox2.union a.1 b.1).isEmpty && F.lt (BBox2.sqDist a.1 b.1) (F.fin 1)

/-- The inner `j` loop of the proximity merge (merging removes element
`j` and keeps scanning at the same `j`; otherwise `j` advances).  The
fuel strictly dominates `defs.length - j`, which every step decreases, so
the 0-fuel branch is unreachable from the initial fuel `defs.length + 1`. -/
def mergeJLoop (i : Nat) : Nat → Nat → List Cluster → Bool → List Cluster × Bool
  | 0, _, defs, ch => (defs, ch)
  | fuel+1, j, defs, ch =>
    if j < defs.length then
      match defs[i]?, defs[j]? with
      | some di, some dj =>
        if mergeCond di dj then
          mergeJLoop i fuel j ((defs.eraseIdx j).set i (BBox2.union di.1 dj.1, di.2 ++ dj.2)) true
        else mergeJLoop i fuel (j+1) defs ch
      | _, _ => (defs, ch)
    else (defs, ch)

/-- The outer `i` loop of one merge pass. -/
def mergeILoop : Nat → Nat → List Cluster → Bool → List Cluster × Bool
  | 0, _, defs, ch => (defs, ch)
  | fuel+1, i, defs, ch =>
    if i < defs.length then
      let r := mergeJLoop i (defs.length + 1) (i+1) defs ch
      mergeILoop fuel (i+1) r.1 r.2
    else (defs, ch)

/-- The `while changed` fixpoint: a pass that merged anything removed at
least one cluster, so `defs.length + 1` passes always reach the fixpoint
(the 0-fuel branch is unreachable from that initial fuel). -/
def mergeFix : Nat → List Cluster → List Cluster
  | 0, defs => defs
  | fuel+1, defs =>
    let r := mergeILoop (defs.length + 1) 0 defs false
    if r.2 then mergeFix fuel r.1 else r.1

/-- The per-entity nearest-centroid choice of the k-means assignment
loop: strict improvement over a best distance starting at `INFINITY`
(squared distances stand in for `hypot`; see the header note). -/
def bestCluster (centers : List FP2) (c : FP2) : Nat :=
  (centers.foldl
    (fun (st : Nat × Nat × F) ck =>
      let d := FP2.sqNorm (FP2.sub c ck)
      if F.lt d st.2.2 then (st.1 + 1, st.1, d) else (st.1 + 1, st.2.1, st.2.2))
    (0, 0, F.inf)).2.1

/-- One k-means assignment pass: assignments (in entity order), component
sums and counts per cluster. -/
def kmeansAssign (centers : List FP2) (entities : List Entity2D) :
    List Nat × List FP2 × List Nat :=
  entities.foldl
    (fun (st : List Nat × List FP2 × List Nat) e =>
      let c := BBox2.center (Entity2D.bbox e)
      let k := bestCluster centers c
      let sk := st.2.1.getD k ⟨F.fin 0, F.fin 0⟩
      (st.1 ++ [k], st.2.1.set k (FP2.add sk c), st.2.2.set k (st.2.2.getD k 0 + 1)))
    ([], centers.map (fun _ => ⟨F.fin 0, F.fin 0⟩), centers.map (fun _ => 0))

/-- One k-means update pass: centroids with a non-empty cluster move to
the mean; returns the new centers and the accumulated movement.  The
source accumulates `hypot` distances and breaks below 0.1; the model
accumulates the squared distances and breaks below `0.1^2`.  This
surrogate agrees with the source exactly when the movement is zero and
can differ only in how early the (at most 10) iterations stop; no claim
below depends on this heuristic's early exit. -/
def kmeansUpdate (centers sums : List FP2) (counts : List Nat) : List FP2 × F :=
  (List.range centers.length).foldl
    (fun (st : List FP2 × F) k =>
      let cnt := counts.getD k 0
      if 0 < cnt then
        let sk := sums.getD k ⟨F.fin 0, F.fin 0⟩
        let ck := st.1.getD k ⟨F.fin 0, F.fin 0⟩
        let newc : FP2 := ⟨F.div sk.x (F.fin (cnt : ℚ)), F.div sk.y (F.fin (cnt : ℚ))⟩
        (st.1.set k newc, F.add st.2 (FP2.sqNorm (FP2.sub newc ck)))
      else st)
    (centers, F.fin 0)

/-- The bounded k-means iteration (at most 10 rounds, early exit on small
movement); returns the final assignments and centers. -/
def kmeansLoop : Nat → List FP2 → List Entity2D → List Nat → List Nat × List FP2
  | 0, centers, _, assign => (assign, centers)
  | fuel+1, centers, entities, _ =>
    let a := kmeansAssign centers entities
    let u := kmeansUpdate centers a.2.1 a.2.2
    if F.lt u.2 (F.fin (1/100)) then (a.1, u.1)
    else kmeansLoop fuel u.1 entities a.1

/-- Regrouping after k-means: entities per cluster index (in entity
order), empty clusters dropped, each kept group under its recomputed
(unexpanded) bounding box. -/
def kmeansGroups (K : Nat) (entities : List Entity2D) (assign : List Nat) : List Cluster :=
  (List.range K).filterMap fun k =>
    let grp := (entities.zip assign).filterMap fun p => if p.2 = k then some p.1 else none
    if grp.isEmpty then none
    else some (grp.foldl (fun b e => BBox2.union b (Entity2D.bbox e)) BBox2.empty, grp)

/-- The global bounding box over a slice of entities. -/
def globalBBox (es : List Entity2D) : BBox2 :=
  es.foldl (fun b e => BBox2.union b (Entity2D.bbox e)) BBox2.empty

/-- view_separation.rs `run_kmeans_k3` (seeds at the top-left,
bottom-left and bottom-right quarter points of the global box). -/
def runKmeansK3 (entities : List Entity2D) : List Cluster :=
  if entities.isEmpty then []
  else
    let g := globalBBox entities
    let w := F.sub g.max.x g.min.x
    let h := F.sub g.max.y g.min.y
    let q : F := F.fin (1/4)
    let centers : List FP2 :=
      [⟨F.add g.min.x (F.mul w q), F.sub g.max.y (F.mul h q)⟩,
       ⟨F.add g.min.x (F.mul w q), F.add g.min.y (F.mul h q)⟩,
       ⟨F.sub g.max.x (F.mul w q), F.add g.min.y (F.mul h q)⟩]
    let r := kmeansLoop 10 centers entities (entities.map fun _ => 0)
    kmeansGroups 3 entities r.1

/-- view_separation.rs `run_kmeans_k2` (seeds along the major axis). -/
def runKmeansK2 (entities : List Entity2D) : List Cluster :=
  if entities.isEmpty then []
  else
    let g := globalBBox entities
    let w := F.sub g.max.x g.min.x
    let h := F.sub g.max.y g.min.y
    let q : F := F.fin (1/4)
    let half : F := F.fin (1/2)
    let centers : List FP2 :=
      if F.lt h w then
        [⟨F.add g.min.x (F.mul w q), F.add g.min.y (F.mul h half)⟩,
         ⟨F.sub g.max.x (F.mul w q), F.add g.min.y (F.mul h half)⟩]
      else
        [⟨F.add g.min.x (F.mul w half), F.sub g.max.y (F.mul h q)⟩,
         ⟨F.add g.min.x (F.mul w half), F.add g.min.y (F.mul h q)⟩]
    let r := kmeansLoop 10 centers entities (entities.map fun _ => 0)
    kmeansGroups 2 entities r.1

/-- Rust `Iterator::max_by_key` (returns the LAST maximal element) on the
entity count, as an index; `none` only for an empty list (where the
source's `unwrap` would panic). -/
def maxByKeyIdxLast (l : List Cluster) : Option Nat :=
  (l.enum.foldl
    (fun (acc : Option (Nat × Nat)) p =>
      match acc with
      | none => some (p.1, p.2.2.length)
      | some best => if best.2 ≤ p.2.2.length then some (p.1, p.2.2.length) else acc)
    none).map (·.1)

/-- Comparator for the role-assignment index sorts: compares the
component at the two indices with `partial_cmp` (`none` = the unwrap
panic). -/
def idxCmpBy (vals : List F) (a b : Nat) : Option Ordering :=
  match vals[a]?, vals[b]? with
  | some va, some vb => F.pcmp va vb
  | _, _ => none

/-- view_separation.rs `separate_spatially`.  `none` models a panic
(the `partial_cmp` unwraps of the role-assignment sorts); `Except.error`
models `bail!`. -/
def separateSpatially (d : Drawing2D) : Option (Except String (View2D × View2D × View2D)) :=
  let valid := d.entities.filter fun e =>
    !(e.kind = EntityKind.Dimension : Bool) && !(e.kind = EntityKind.Text : Bool)
  if valid.isEmpty then some (Except.error "No geometry found in drawing")
  else
    let definitions0 : List Cluster :=
      valid.map fun e => ((Entity2D.bbox e).expand (F.fin 5), [e])
    let defs1 := mergeFix (definitions0.length + 1) definitions0
    let defs2opt : Option (List Cluster) :=
      if defs1.length = 1 then
        match defs1[0]? with
        | some c => some (runKmeansK3 c.2)
        | none => none
      else if defs1.length = 2 then
        match maxByKeyIdxLast defs1 with
        | none => none
        | some mi =>
          match defs1[mi]? with
          | none => none
          | some large =>
            let defsR := defs1.eraseIdx mi
            let split := runKmeansK2 large.2
            if split.length = 2 then some (defsR ++ split) else some (defsR ++ [large])
      else some defs1
    match defs2opt with
    | none => none
    | some defs2 =>
      let defs3 : Except String (List Cluster) :=
        if defs2.length ≠ 3 then
          let sortedD := insertionSortT (fun a b => decide (b.2.length ≤ a.2.length)) defs2
          if 3 < sortedD.length then Except.ok (sortedD.take 3)
          else if sortedD.length < 3 then
            Except.error "ViewSeparationFailed: fewer than 3 clusters"
          else Except.ok sortedD
        else Except.ok defs2
      match defs3 with
      | Except.error m => some (Except.error m)
      | Except.ok defs => do
        let centers := defs.map fun c => BBox2.center c.1
        let indices ← insertionSortOpt (idxCmpBy (centers.map (·.y))) [0, 1, 2]
        let top_idx ← indices[2]?
        let i0 ← indices[0]?
        let i1 ← indices[1]?
        let bottom ← insertionSortOpt (idxCmpBy (centers.map (·.x))) [i0, i1]
        let front_idx ← bottom[0]?
        let side_idx ← bottom[1]?
        let cTop ← defs[top_idx]?
        let cFront ← defs[front_idx]?
        let cSide ← defs[side_idx]?
        some (Except.ok
          ({ View2D.new ViewPlane.XY with raw_entities := cTop.2 },
           { View2D.new ViewPlane.XZ with raw_entities := cFront.2 },
           { View2D.new ViewPlane.YZ with raw_entities := cSide.2 }))

/-- view_separation.rs `separate_views`: the layer path, falling back to
spatial clustering exactly when all three layer groups are empty. -/
def separateViews (d : Drawing2D) : Option (Except String (View2D × View2D × View2D)) :=
  if (layerGroups d).1.isEmpty && (layerGroups d).2.1.isEmpty && (layerGroups d).2.2.isEmpty then
    separateSpatially d
  else some (Except.ok
    ({ View2D.new ViewPlane.XY with raw_entities := (layerGroups d).1 },
     { View2D.new ViewPlane.XZ with raw_entities := (layerGroups d).2.1 },
     { View2D.new ViewPlane.YZ with raw_entities := (layerGroups d).2.2 }))

deriving instance DecidableEq for Except

/-! ## Concrete reconstruction and separation inputs -/

def zeroShift : FP2 := ⟨F.fin 0, F.fin 0⟩

/-- An XY view whose single vertex has a NaN x coordinate. -/
def vXYnan : View2D := ⟨ViewPlane.XY, [], [⟨0, ⟨F.nan, F.fin 0⟩⟩], []⟩

/-- An XY view with a single finite vertex at the origin. -/
def vXYfin : View2D := ⟨ViewPlane.XY, [], [⟨0, ⟨F.fin 0, F.fin 0⟩⟩], []⟩

def vXZ0 : View2D := ⟨ViewPlane.XZ, [], [⟨0, ⟨F.fin 0, F.fin 0⟩⟩], []⟩

def vYZ0 : View2D := ⟨ViewPlane.YZ, [], [⟨0, ⟨F.fin 0, F.fin 0⟩⟩], []⟩

/-- The Λ row the lifter forms from the NaN XY vertex. -/
def nanRow : LambdaRow := ⟨⟨F.nan, F.fin 0, F.fin 0⟩, 0, 0, 0⟩

/-- The Λ row the lifter forms from the all-finite origin triple. -/
def finRow : LambdaRow := ⟨⟨F.fin 0, F.fin 0, F.fin 0⟩, 0, 0, 0⟩

/-- Three Λ rows for the selector / emitter examples. -/
def lambda3 : List LambdaRow :=
  [⟨⟨F.fin 0, F.fin 0, F.fin 0⟩, 0, 0, 0⟩,
   ⟨⟨F.fin 1, F.fin 0, F.fin 0⟩, 1, 1, 1⟩,
   ⟨⟨F.fin 2, F.fin 0, F.fin 0⟩, 2, 2, 2⟩]

/-- A view holding the edge path 0–1–2 (only `edges` matter to the
selector). -/
def pathView : View2D :=
  ⟨ViewPlane.XY, [], [], [⟨0, 0, 1, none⟩, ⟨1, 1, 2, none⟩]⟩

/-- A Θ iteration order that lists the pair (1,2) before (0,1). -/
def iterRev : List ThetaEdge := [⟨1, 2⟩, ⟨0, 1⟩]

/-- A drawing with a single entity on layer `TOP`. -/
def eTop : Entity2D :=
  ⟨1, EntityKind.Object, Primitive2D.Line ⟨F.fin 0, F.fin 0⟩ ⟨F.fin 1, F.fin 1⟩,
    ⟨some "TOP", none, none⟩⟩

def topDrawing : Drawing2D := ⟨UnitsTag.Unknown, [eTop], [], []⟩

/-- An un-layered drawing whose first entity has all-NaN coordinates and
whose other two entities form two distant clusters: the spatial fallback
finds exactly three clusters, one with a NaN centroid. -/
def eAllNaN : Entity2D :=
  ⟨1, EntityKind.Object, Primitive2D.Line ⟨F.nan, F.nan⟩ ⟨F.nan, F.nan⟩,
    ⟨none, none, none⟩⟩

def eNear : Entity2D :=
  ⟨2, EntityKind.Object, Primitive2D.Line ⟨F.fin 0, F.fin 0⟩ ⟨F.fin 1, F.fin 0⟩,
    ⟨none, none, none⟩⟩

def eFar : Entity2D :=
  ⟨3, EntityKind.Object, Primitive2D.Line ⟨F.fin 100, F.fin 0⟩ ⟨F.fin 101, F.fin 0⟩,
    ⟨none, none, none⟩⟩

def panicDrawing : Drawing2D := ⟨UnitsTag.Unknown, [eAllNaN, eNear, eFar], [], []⟩

/-! ## Helper lemmas: arithmetic symmetry and the snap invariants -/

theorem F.sub_swap (a b : F) : F.sub b a = F.neg (F.sub a b) := by
  cases a <;> cases b <;> simp [F.sub, F.add, F.neg]

theorem F.mul_self_neg (x : F) : F.mul (F.neg x) (F.neg x) = F.mul x x := by
  cases x <;> simp [F.neg, F.mul]

theorem FP2.sqNorm_sub_comm (a b : FP2) : FP2.sqNorm (FP2.sub a b) = FP2.sqNorm (FP2.sub b a) := by
  simp only [FP2.sqNorm, FP2.sub]
  rw [F.sub_swap a.x b.x, F.sub_swap a.y b.y, F.mul_self_neg, F.mul_self_neg]

theorem FP2.sqNorm_fin_of_finite {a b : FP2} (ha : FP2.finite a = true)
    (hb : FP2.finite b = true) : ∃ q : ℚ, FP2.sqNorm (FP2.sub a b) = F.fin q := by
  obtain ⟨ax, ay⟩ := a
  obtain ⟨bx, by'⟩ := b
  cases ax <;> cases ay <;> cases bx <;> cases by' <;>
    simp_all [FP2.finite, F.isFinite, FP2.sqNorm, FP2.sub, F.sub, F.add, F.neg, F.mul]

/-- The separation relation the snap search maintains: two finite points
in the vertex list are at squared distance at least `EPSILON^2`. -/
def SepR (a b : FP2) : Prop :=
  FP2.finite a = true → FP2.finite b = true →
    F.le (F.fin EPS2) (FP2.sqNorm (FP2.sub a b)) = true

theorem SepR_symm {a b : FP2} (h : SepR a b) : SepR b a := by
  intro hb ha
  have := h ha hb
  rwa [FP2.sqNorm_sub_comm] at this

theorem getPointId_spec (p : FP2) (pts : List FP2) :
    (getPointId p pts).1 = pts ∨
    ((getPointId p pts).1 = pts ++ [p] ∧
      ∀ q ∈ pts, F.lt (FP2.sqNorm (FP2.sub p q)) (F.fin EPS2) = false) := by
  unfold getPointId
  cases hf : pts.findIdx? fun q => F.lt (FP2.sqNorm (FP2.sub p q)) (F.fin EPS2) with
  | some idx => exact Or.inl rfl
  | none =>
    refine Or.inr ⟨rfl, ?_⟩
    exact List.findIdx?_eq_none_iff.mp hf

theorem pairwise_snap_extend {p : FP2} {pts : List FP2}
    (hpw : List.Pairwise SepR pts)
    (hfar : ∀ q ∈ pts, F.lt (FP2.sqNorm (FP2.sub p q)) (F.fin EPS2) = false) :
    List.Pairwise SepR (pts ++ [p]) := by
  rw [List.pairwise_append]
  refine ⟨hpw, List.pairwise_singleton _ _, ?_⟩
  intro a ha b hb
  rw [List.mem_singleton] at hb
  subst hb
  intro hfa hfb
  have hlt := hfar a ha
  rw [FP2.sqNorm_sub_comm b a] at hlt
  obtain ⟨q, hq⟩ := FP2.sqNorm_fin_of_finite hfa hfb
  rw [hq] at hlt ⊢
  simp only [F.lt, decide_eq_false_iff_not, not_lt] at hlt
  simpa [F.le] using hlt

theorem getPointId_pairwise {p : FP2} {pts : List FP2} (hpw : List.Pairwise SepR pts) :
    List.Pairwise SepR (getPointId p pts).1 := by
  rcases getPointId_spec p pts with h | ⟨h, hfar⟩
  · rwa [h]
  · rw [h]; exact pairwise_snap_extend hpw hfar

theorem snapStep_inv {st : List FP2 × List Edge2D} {seg : RawSegment}
    (hpw : List.Pairwise SepR st.1) (hed : ∀ e ∈ st.2, e.start ≠ e.end_) :
    List.Pairwise SepR (snapStep st seg).1 ∧ ∀ e ∈ (snapStep st seg).2, e.start ≠ e.end_ := by
  unfold snapStep
  have h1 : List.Pairwise SepR (getPointId seg.p1 st.1).1 := getPointId_pairwise hpw
  have h2 : List.Pairwise SepR (getPointId seg.p2 (getPointId seg.p1 st.1).1).1 :=
    getPointId_pairwise h1
  by_cases hne : (getPointId seg.p1 st.1).2 = (getPointId seg.p2 (getPointId seg.p1 st.1).1).2
  · rw [if_neg (by simp [hne])]
    exact ⟨h2, hed⟩
  · rw [if_pos hne]
    refine ⟨h2, ?_⟩
    intro e he
    rcases List.mem_append.mp he with h | h
    · exact hed e h
    · rw [List.mem_singleton] at h
      subst h
      exact hne

theorem snapAll_inv (segs : List RawSegment) :
    List.Pairwise SepR (snapAll segs).1 ∧ ∀ e ∈ (snapAll segs).2, e.start ≠ e.end_ := by
  unfold snapAll
  suffices h : ∀ st : List FP2 × List Edge2D, List.Pairwise SepR st.1 →
      (∀ e ∈ st.2, e.start ≠ e.end_) →
      List.Pairwise SepR (segs.foldl snapStep st).1 ∧
        ∀ e ∈ (segs.foldl snapStep st).2, e.start ≠ e.end_ by
    exact h ([], []) List.Pairwise.nil (by simp)
  induction segs with
  | nil => intro st h1 h2; exact ⟨h1, h2⟩
  | cons seg rest ih =>
    intro st h1 h2
    have := @snapStep_inv st seg h1 h2
    exact ih _ this.1 this.2

/-- Shape of a successful `buildTopology` run. -/
theorem buildTopology_spec {view v' : View2D} (h : buildTopology view = some v') :
    ∃ finals, finalSegsOf (extractSegments view.raw_entities) = some finals ∧
      v' = { view with
        vertices := (snapAll finals).1.enum.map fun p => ⟨p.1, p.2⟩
        edges := (snapAll finals).2.enum.map fun p => { p.2 with id := p.1 } } := by
  unfold buildTopology at h
  cases hf : finalSegsOf (extractSegments view.raw_entities) with
  | none => rw [hf] at h; exact absurd h (by simp)
  | some finals =>
    rw [hf] at h
    simp only [Option.some.injEq] at h
    exact ⟨finals, rfl, h.symm⟩

theorem mem_enum_map_edges {l : List Edge2D} {e : Edge2D}
    (h : e ∈ l.enum.map fun p => { p.2 with id := p.1 }) :
    ∃ e₀ ∈ l, e.start = e₀.start ∧ e.end_ = e₀.end_ := by
  rcases List.mem_map.mp h with ⟨p, hp, he⟩
  rcases List.mem_iff_getElem?.mp hp with ⟨n, hn⟩
  rw [List.getElem?_enum] at hn
  rcases Option.map_eq_some'.mp hn with ⟨a, ha, hpa⟩
  refine ⟨a, List.mem_iff_getElem?.mpr ⟨n, ha⟩, ?_, ?_⟩ <;> rw [← he, ← hpa]

theorem vertices_getElem? {l : List FP2} {i : Nat} {vi : Vertex2D}
    (h : (l.enum.map fun p => (⟨p.1, p.2⟩ : Vertex2D))[i]? = some vi) :
    l[i]? = some vi.point ∧ vi.id = i := by
  rw [List.getElem?_map, List.getElem?_enum] at h
  cases hl : l[i]? with
  | none => rw [hl] at h; simp at h
  | some p =>
    rw [hl] at h
    simp only [Option.map_some', Option.some.injEq] at h
    rw [← h]
    exact ⟨rfl, rfl⟩

theorem pairwise_getElem?_sep {pts : List FP2} (hpw : List.Pairwise SepR pts)
    {i j : Nat} {p q : FP2} (hi : pts[i]? = some p) (hj : pts[j]? = some q)
    (hij : i < j) : SepR p q := by
  obtain ⟨hi', hpi⟩ := List.getElem?_eq_some_iff.mp hi
  obtain ⟨hj', hpj⟩ := List.getElem?_eq_some_iff.mp hj
  have := List.pairwise_iff_get.mp hpw ⟨i, hi'⟩ ⟨j, hj'⟩ hij
  simpa [List.get_eq_getElem, hpi, hpj] using this

/-- C1 (amended): after topology construction no edge is a self-loop. -/
theorem C1_no_self_loops (view v' : View2D) (h : buildTopology view = some v') :
    ∀ e ∈ v'.edges, e.start ≠ e.end_ := by
  obtain ⟨finals, _, rfl⟩ := buildTopology_spec h
  intro e he
  obtain ⟨e₀, he₀, hs, hn⟩ := mem_enum_map_edges he
  rw [hs, hn]
  exact (snapAll_inv finals).2 e₀ he₀

/-- C1 witness input evaluation. -/
def dupViewOut : View2D :=
  ⟨ViewPlane.XY, dupView.raw_entities,
   [⟨0, ⟨F.fin 0, F.fin 0⟩⟩, ⟨1, ⟨F.fin 1, F.fin 0⟩⟩],
   [⟨0, 0, 1, some 1⟩, ⟨1, 0, 1, some 2⟩]⟩

theorem C1_no_self_loops_inst :
    (⟨0, 0, 1, some 1⟩ : Edge2D).start ≠ (⟨0, 0, 1, some 1⟩ : Edge2D).end_ :=
  C1_no_self_loops dupView dupViewOut (by decide) ⟨0, 0, 1, some 1⟩ (by decide)

/-- C1 counterexample: two coincident raw segments survive as two distinct
edges (ids 0 and 1) with the same unordered endpoint pair {0, 1}: the edge
set is not a simple graph. -/
theorem C1_cex :
    (buildTopology dupView).map View2D.edges
      = some [⟨0, 0, 1, some 1⟩, ⟨1, 0, 1, some 2⟩] := by decide

/-- C8 (amended): after topology construction every edge has
`start ≠ end`, and any two distinct vertices with all-finite coordinates
are at squared distance at least `EPSILON^2` (i.e. at distance at least
`EPSILON`). -/
theorem C8_topology_invariants (view v' : View2D) (h : buildTopology view = some v') :
    (∀ e ∈ v'.edges, e.start ≠ e.end_) ∧
    (∀ (i j : Nat) (vi vj : Vertex2D), v'.vertices[i]? = some vi → v'.vertices[j]? = some vj →
      i ≠ j → FP2.finite vi.point = true → FP2.finite vj.point = true →
      F.le (F.fin EPS2) (FP2.sqNorm (FP2.sub vi.point vj.point)) = true) := by
  obtain ⟨finals, _, rfl⟩ := buildTopology_spec h
  constructor
  · intro e he
    obtain ⟨e₀, he₀, hs, hn⟩ := mem_enum_map_edges he
    rw [hs, hn]
    exact (snapAll_inv finals).2 e₀ he₀
  · intro i j vi vj hvi hvj hij hfi hfj
    obtain ⟨hpi, _⟩ := vertices_getElem? hvi
    obtain ⟨hpj, _⟩ := vertices_getElem? hvj
    have hpw := (snapAll_inv finals).1
    rcases Nat.lt_or_ge i j with hlt | hge
    · exact pairwise_getElem?_sep hpw hpi hpj hlt hfi hfj
    · have hlt : j < i := lt_of_le_of_ne hge (fun hh => hij hh.symm)
      exact SepR_symm (pairwise_getElem?_sep hpw hpj hpi hlt) hfi hfj

theorem C8_topology_invariants_inst :
    F.le (F.fin EPS2)
      (FP2.sqNorm (FP2.sub (⟨F.fin 0, F.fin 0⟩ : FP2) ⟨F.fin 1, F.fin 0⟩)) = true :=
  (C8_topology_invariants dupView dupViewOut (by decide)).2 0 1
    ⟨0, ⟨F.fin 0, F.fin 0⟩⟩ ⟨1, ⟨F.fin 1, F.fin 0⟩⟩
    (by decide) (by decide) (by decide) (by decide) (by decide)

/-- C8 counterexample: a segment with NaN x coordinates produces two
distinct vertices whose mutual (squared) distance comparison with
`EPSILON^2` is false — NaN vertices are not `EPSILON`-separated. -/
theorem C8_cex :
    (buildTopology nanSegView).map View2D.vertices
        = some [⟨0, ⟨F.nan, F.fin 0⟩⟩, ⟨1, ⟨F.nan, F.fin 1⟩⟩] ∧
    F.le (F.fin EPS2)
      (FP2.sqNorm (FP2.sub (⟨F.nan, F.fin 0⟩ : FP2) ⟨F.nan, F.fin 1⟩)) = false := by
  constructor <;> decide

/-- C9: the two crossing segments (0,0)–(10,10) and (0,10)–(10,0) yield
exactly 5 vertices and 4 edges. -/
theorem C9_crossing_lines :
    (buildTopology crossView).map (fun v => (v.vertices.length, v.edges.length))
      = some (5, 4) := by decide

/-! ## Selector lemmas and claims C2 / C10 -/

theorem normPair_eq_iff {a b x y : Nat} (_hab : a ≠ b) :
    normPair x y = normPair a b ↔ (x = a ∧ y = b) ∨ (x = b ∧ y = a) := by
  unfold normPair
  split_ifs <;> simp [Prod.ext_iff] <;> omega

/-- The spec-side support predicate for one view: the two 2D ids refer to
the same vertex, or their unordered pair is the endpoint pair of some
edge of the view. -/
def viewSupports (v : View2D) (a b : Nat) : Prop :=
  a = b ∨ ∃ e ∈ v.edges, (e.start = a ∧ e.end_ = b) ∨ (e.start = b ∧ e.end_ = a)

instance (v : View2D) (a b : Nat) : Decidable (viewSupports v a b) := by
  unfold viewSupports; infer_instance

theorem edgeExists_iff (v : View2D) (a b : Nat) :
    edgeExists (edgeKeys v) a b = true ↔ viewSupports v a b := by
  unfold edgeExists viewSupports
  by_cases hab : a = b
  · simp [hab]
  · rw [if_neg hab, decide_eq_true_iff]
    unfold edgeKeys
    rw [List.mem_map]
    constructor
    · rintro ⟨e, he, heq⟩
      exact Or.inr ⟨e, he, (normPair_eq_iff hab).mp heq⟩
    · rintro (h | ⟨e, he, hcase⟩)
      · exact absurd h hab
      · exact ⟨e, he, (normPair_eq_iff hab).mpr hcase⟩

theorem thetaOk_iff (vxy vxz vyz : View2D) (L1 L2 : LambdaRow) :
    thetaOk (edgeKeys vxy) (edgeKeys vxz) (edgeKeys vyz) L1 L2 = true ↔
    viewSupports vxy L1.v_xy_id L2.v_xy_id ∧ viewSupports vxz L1.v_xz_id L2.v_xz_id ∧
      viewSupports vyz L1.v_yz_id L2.v_yz_id := by
  unfold thetaOk
  simp only [Bool.and_eq_true, edgeExists_iff, and_assoc]

theorem buildTheta_mem_iff {lambda : List LambdaRow} {vxy vxz vyz : View2D} {i j : Nat} :
    (⟨i, j⟩ : ThetaEdge) ∈ buildTheta lambda vxy vxz vyz ↔
    i < j ∧ ∃ L1 L2, lambda[i]? = some L1 ∧ lambda[j]? = some L2 ∧
      thetaOk (edgeKeys vxy) (edgeKeys vxz) (edgeKeys vyz) L1 L2 = true := by
  unfold buildTheta
  rw [List.mem_flatMap]
  constructor
  · rintro ⟨i', hi', hj⟩
    rw [List.mem_filterMap] at hj
    obtain ⟨j', hj', heq⟩ := hj
    cases h1 : lambda[i']? with
    | none => rw [h1] at heq; simp at heq
    | some L1 =>
      cases h2 : lambda[j']? with
      | none => rw [h1, h2] at heq; simp at heq
      | some L2 =>
        rw [h1, h2] at heq
        dsimp only at heq
        by_cases hok :
            thetaOk (edgeKeys vxy) (edgeKeys vxz) (edgeKeys vyz) L1 L2 = true
        · rw [if_pos hok] at heq
          have hinj := Option.some.inj heq
          have hii : i' = i := congrArg ThetaEdge.start_lambda_idx hinj
          have hjj : j' = j := congrArg ThetaEdge.end_lambda_idx hinj
          rw [List.mem_range'] at hj'
          obtain ⟨k, hk, hjk⟩ := hj'
          exact ⟨by omega, L1, L2, hii ▸ h1, hjj ▸ h2, hok⟩
        · rw [if_neg hok] at heq
          simp at heq
  · rintro ⟨hij, L1, L2, h1, h2, hok⟩
    have hi : i < lambda.length := (List.getElem?_eq_some_iff.mp h1).1
    have hj : j < lambda.length := (List.getElem?_eq_some_iff.mp h2).1
    refine ⟨i, List.mem_range.mpr hi, ?_⟩
    rw [List.mem_filterMap]
    refine ⟨j, ?_, ?_⟩
    · rw [List.mem_range']
      exact ⟨j - (i + 1), by omega, by omega⟩
    · rw [h1, h2]
      dsimp only
      rw [if_pos hok]

/-- C2: the selector retains a pair (i, j) with i < j iff, for each of
the three views, the corresponding 2D vertex ids agree or form the
unordered endpoint pair of an edge of that view. -/
theorem C2_selector_characterization (lambda : List LambdaRow) (vxy vxz vyz : View2D)
    (i j : Nat) :
    (⟨i, j⟩ : ThetaEdge) ∈ buildTheta lambda vxy vxz vyz ↔
    (i < j ∧ ∃ L1 L2, lambda[i]? = some L1 ∧ lambda[j]? = some L2 ∧
      viewSupports vxy L1.v_xy_id L2.v_xy_id ∧ viewSupports vxz L1.v_xz_id L2.v_xz_id ∧
      viewSupports vyz L1.v_yz_id L2.v_yz_id) := by
  rw [buildTheta_mem_iff]
  constructor
  · rintro ⟨hij, L1, L2, h1, h2, hok⟩
    exact ⟨hij, L1, L2, h1, h2, (thetaOk_iff vxy vxz vyz L1 L2).mp hok⟩
  · rintro ⟨hij, L1, L2, h1, h2, hok⟩
    exact ⟨hij, L1, L2, h1, h2, (thetaOk_iff vxy vxz vyz L1 L2).mpr hok⟩

theorem C2_selector_characterization_inst :
    (⟨0, 1⟩ : ThetaEdge) ∈ buildTheta lambda3 pathView pathView pathView :=
  (C2_selector_characterization lambda3 pathView pathView pathView 0 1).mpr
    ⟨by decide, ⟨⟨F.fin 0, F.fin 0, F.fin 0⟩, 0, 0, 0⟩, ⟨⟨F.fin 1, F.fin 0, F.fin 0⟩, 1, 1, 1⟩,
      by decide, by decide, by decide, by decide, by decide⟩

/-- C10: every selected Θ edge has `start < end < |Λ|`, and the STEP
emitter's Λ lookups at those indices succeed. -/
theorem C10_theta_indices (lambda : List LambdaRow) (vxy vxz vyz : View2D) (e : ThetaEdge)
    (h : e ∈ buildTheta lambda vxy vxz vyz) :
    e.start_lambda_idx < e.end_lambda_idx ∧ e.end_lambda_idx < lambda.length ∧
    (edgeSection lambda [e]).isSome = true := by
  obtain ⟨i, j⟩ := e
  rw [buildTheta_mem_iff] at h
  obtain ⟨hij, L1, L2, h1, h2, _⟩ := h
  have hj : j < lambda.length := (List.getElem?_eq_some_iff.mp h2).1
  refine ⟨hij, hj, ?_⟩
  simp [edgeSection, edgeSectionGo, h1, h2]

theorem C10_theta_indices_inst :
    (0 : Nat) < 1 ∧ 1 < lambda3.length ∧
    (edgeSection lambda3 [⟨0, 1⟩]).isSome = true :=
  C10_theta_indices lambda3 pathView pathView pathView ⟨0, 1⟩ (by decide)

/-! ## Emitter lemmas and claim C7 -/

theorem edgeSectionGo_spec (lambda : List LambdaRow) :
    ∀ (iter : List ThetaEdge) (k : Nat) (l : List EdgeEmit),
      edgeSectionGo lambda k iter = some l →
      l.map EdgeEmit.pair = iter.map (fun e => (e.start_lambda_idx, e.end_lambda_idx)) ∧
      ∀ (m : Nat) (e : ThetaEdge), iter[m]? = some e →
        ∃ r : EdgeEmit, l[m]? = some r ∧
          r.edge_id = STEP_GEOM_BASE + 2 * lambda.length + 4 * (k + m) + 3 ∧
          r.v1_ref = STEP_GEOM_BASE + 2 * e.start_lambda_idx + 1 ∧
          r.v2_ref = STEP_GEOM_BASE + 2 * e.end_lambda_idx + 1 := by
  intro iter
  induction iter with
  | nil =>
    intro k l h
    unfold edgeSectionGo at h
    obtain rfl : ([] : List EdgeEmit) = l := Option.some.inj h
    exact ⟨rfl, by intro m e hm; simp at hm⟩
  | cons e rest ih =>
    intro k l h
    unfold edgeSectionGo at h
    cases hL1 : lambda[e.start_lambda_idx]? with
    | none => rw [hL1] at h; simp at h
    | some L1 =>
      cases hL2 : lambda[e.end_lambda_idx]? with
      | none => rw [hL1, hL2] at h; simp at h
      | some L2 =>
        rw [hL1, hL2] at h
        dsimp only at h
        cases htail : edgeSectionGo lambda (k + 1) rest with
        | none => rw [htail] at h; simp at h
        | some tail =>
          rw [htail] at h
          simp only [Option.some.injEq] at h
          obtain ⟨hmap, hind⟩ := ih (k + 1) tail htail
          subst h
          constructor
          · simp [hmap]
          · intro m e' hm
            cases m with
            | zero =>
              rw [List.getElem?_cons_zero] at hm
              obtain rfl : e = e' := Option.some.inj hm
              exact ⟨_, List.getElem?_cons_zero, by simp, rfl, rfl⟩
            | succ m' =>
              simp only [List.getElem?_cons_succ] at hm
              obtain ⟨r', hr', h1, h2, h3⟩ := hind m' e' hm
              exact ⟨r', by simpa using hr', by omega, h2, h3⟩

/-- C7 (amended): the emitter writes Θ in the hash set's iteration order,
not sorted by (i, j); the `m`-th emitted edge occupies the four entity ids
from `24 + 2|Λ| + 4m` and its EDGE_CURVE references the vertex points of
its Λ indices. -/
theorem C7_emit_order (lambda : List LambdaRow) (iter : List ThetaEdge) (l : List EdgeEmit)
    (h : edgeSection lambda iter = some l) :
    l.map EdgeEmit.pair = iter.map (fun e => (e.start_lambda_idx, e.end_lambda_idx)) ∧
    ∀ (m : Nat) (e : ThetaEdge), iter[m]? = some e →
      ∃ r : EdgeEmit, l[m]? = some r ∧
        r.edge_id = STEP_GEOM_BASE + 2 * lambda.length + 4 * m + 3 ∧
        r.v1_ref = STEP_GEOM_BASE + 2 * e.start_lambda_idx + 1 ∧
        r.v2_ref = STEP_GEOM_BASE + 2 * e.end_lambda_idx + 1 := by
  obtain ⟨hmap, hind⟩ := edgeSectionGo_spec lambda iter 0 l h
  refine ⟨hmap, ?_⟩
  intro m e hm
  obtain ⟨r, hr, h1, h2, h3⟩ := hind m e hm
  exact ⟨r, hr, by omega, h2, h3⟩

/-- The emitted records for `iterRev` over `lambda3`. -/
def iterRevOut : List EdgeEmit :=
  [⟨30, 31, 32, 33, 27, 29, (1, 2), ⟨F.fin 1, F.fin 0, F.fin 0⟩, false⟩,
   ⟨34, 35, 36, 37, 25, 27, (0, 1), ⟨F.fin 1, F.fin 0, F.fin 0⟩, false⟩]

theorem C7_emit_order_inst :
    iterRevOut.map EdgeEmit.pair
      = iterRev.map (fun e => (e.start_lambda_idx, e.end_lambda_idx)) :=
  (C7_emit_order lambda3 iterRev iterRevOut (by decide)).1

/-- C7 counterexample: `iterRev` is a legal iteration order of the Θ set
`buildTheta lambda3 …` (a permutation of it), and the emitted pair
sequence [(1,2), (0,1)] is not ascending: the emitter does not sort. -/
theorem C7_cex :
    iterRev.Perm (buildTheta lambda3 pathView pathView pathView) ∧
    (edgeSection lambda3 iterRev).map (List.map EdgeEmit.pair) = some [(1, 2), (0, 1)] ∧
    ¬ pairsAscending [(1, 2), (0, 1)] := by
  refine ⟨by decide, by decide, ?_⟩
  unfold pairsAscending
  decide

/-! ## View-separation claims C4 / C6 -/

/-- C4 (amended): whenever the layer-name primary path assigns at least
one entity to any view, `separate_views` succeeds and returns the three
layer groups — it does not fail, no matter how many of the groups are
empty.  A `ViewSeparationFailed` error can only come from the spatial
fallback, which runs just when all three layer groups are empty. -/
theorem C4_layer_success (d : Drawing2D)
    (h : ¬((layerGroups d).1 = [] ∧ (layerGroups d).2.1 = [] ∧ (layerGroups d).2.2 = [])) :
    separateViews d = some (Except.ok
      ({ View2D.new ViewPlane.XY with raw_entities := (layerGroups d).1 },
       { View2D.new ViewPlane.XZ with raw_entities := (layerGroups d).2.1 },
       { View2D.new ViewPlane.YZ with raw_entities := (layerGroups d).2.2 })) := by
  unfold separateViews
  rw [if_neg]
  simp only [Bool.and_eq_true, List.isEmpty_iff]
  intro hc
  exact h ⟨hc.1.1, hc.1.2, hc.2⟩

theorem C4_layer_success_inst :
    separateViews topDrawing = some (Except.ok
      ({ View2D.new ViewPlane.XY with raw_entities := [eTop] },
       { View2D.new ViewPlane.XZ with raw_entities := [] },
       { View2D.new ViewPlane.YZ with raw_entities := [] })) :=
  C4_layer_success topDrawing (by decide)

/-- C4 counterexample: with a single entity on layer `TOP` only one
meaningful group exists, yet the partitioner returns `Ok` (XZ and YZ
empty) instead of the claimed `ViewSeparationFailed`. -/
theorem C4_cex :
    (separateViews topDrawing).map (Except.map fun t =>
      (t.1.raw_entities.map (·.id), t.2.1.raw_entities.map (·.id),
        t.2.2.raw_entities.map (·.id)))
      = some (Except.ok ([1], [], [])) := by decide

/-- C6: the reconstruction core can panic.  On `panicDrawing` (no layer
names, one all-NaN entity, two far-apart finite entities) the spatial
fallback reaches the role-assignment sort with a NaN cluster centroid and
the comparator's `partial_cmp(..).unwrap()` panics (modelled as `none`). -/
theorem C6_spatial_panic : separateViews panicDrawing = none := by decide

/-! ## Lifter lemmas and claims C3 / C5 -/

theorem mem_insertIn {α : Type} {le : α → α → Bool} {x y : α} :
    ∀ {l : List α}, y ∈ insertIn le x l ↔ y = x ∨ y ∈ l := by
  intro l
  induction l with
  | nil => simp [insertIn]
  | cons a t ih =>
    by_cases h : le a x = true
    · simp only [insertIn, if_pos h, List.mem_cons, ih]
      tauto
    · simp only [insertIn, if_neg h, List.mem_cons]

theorem mem_insertionSortT {α : Type} {le : α → α → Bool} {y : α} {l : List α} :
    y ∈ insertionSortT le l ↔ y ∈ l := by
  unfold insertionSortT
  suffices h : ∀ (acc : List α), y ∈ l.foldl (fun acc x => insertIn le x acc) acc ↔
      y ∈ acc ∨ y ∈ l by
    simpa using h []
  induction l with
  | nil => simp
  | cons a t ih =>
    intro acc
    simp only [List.foldl_cons, ih, mem_insertIn, List.mem_cons]
    tauto

theorem pairwise_insertIn {α : Type} {le : α → α → Bool}
    (htrans : ∀ a b c, le a b = true → le b c = true → le a c = true)
    (htot : ∀ a b, le a b = true ∨ le b a = true) (x : α) :
    ∀ {l : List α}, List.Pairwise (fun a b => le a b = true) l →
      List.Pairwise (fun a b => le a b = true) (insertIn le x l) := by
  intro l
  induction l with
  | nil => intro _; simp [insertIn]
  | cons a t ih =>
    intro hpw
    rw [List.pairwise_cons] at hpw
    obtain ⟨ha, hpt⟩ := hpw
    by_cases h : le a x = true
    · rw [insertIn, if_pos h]
      rw [List.pairwise_cons]
      refine ⟨?_, ih hpt⟩
      intro z hz
      rcases mem_insertIn.mp hz with rfl | hz'
      · exact h
      · exact ha z hz'
    · rw [insertIn, if_neg h]
      rw [List.pairwise_cons]
      have hxa : le x a = true := (htot a x).resolve_left h
      refine ⟨?_, List.pairwise_cons.mpr ⟨ha, hpt⟩⟩
      intro z hz
      rcases List.mem_cons.mp hz with rfl | hz'
      · exact hxa
      · exact htrans x a z hxa (ha z hz')

theorem pairwise_insertionSortT {α : Type} {le : α → α → Bool}
    (htrans : ∀ a b c, le a b = true → le b c = true → le a c = true)
    (htot : ∀ a b, le a b = true ∨ le b a = true) (l : List α) :
    List.Pairwise (fun a b => le a b = true) (insertionSortT le l) := by
  unfold insertionSortT
  suffices h : ∀ acc : List α, List.Pairwise (fun a b => le a b = true) acc →
      List.Pairwise (fun a b => le a b = true)
        (l.foldl (fun acc x => insertIn le x acc) acc) by
    exact h [] List.Pairwise.nil
  induction l with
  | nil => intro acc h; exact h
  | cons a t ih =>
    intro acc h
    exact ih _ (pairwise_insertIn htrans htot a h)

theorem mem_drop_takeWhile_false {α : Type} {R : α → α → Prop} {p : α → Bool} :
    ∀ {l : List α}, List.Pairwise R l →
      (∀ a b, a ∈ l → b ∈ l → R a b → p b = true → p a = true) →
      ∀ x ∈ l.drop (l.takeWhile p).length, p x = false := by
  intro l
  induction l with
  | nil => intro _ _ x hx; simp at hx
  | cons a t ih =>
    intro hpw himp x hx
    rw [List.pairwise_cons] at hpw
    obtain ⟨ha, hpt⟩ := hpw
    by_cases hpa : p a = true
    · rw [List.takeWhile_cons_of_pos hpa] at hx
      simp only [List.length_cons, List.drop_succ_cons] at hx
      exact ih hpt
        (fun u v hu hv => himp u v (List.mem_cons_of_mem a hu) (List.mem_cons_of_mem a hv))
        x hx
    · rw [List.takeWhile_cons_of_neg hpa] at hx
      simp only [List.length_nil, List.drop_zero] at hx
      rcases List.mem_cons.mp hx with rfl | hx'
      · exact Bool.eq_false_iff.mpr hpa
      · by_cases hpx : p x = true
        · exact absurd (himp a x (List.mem_cons_self a t) (List.mem_cons_of_mem a hx')
            (ha x hx') hpx) hpa
        · exact Bool.eq_false_iff.mpr hpx

theorem isFinite_elim {f : F} (h : f.isFinite = true) : ∃ q, f = F.fin q := by
  cases f <;> simp_all [F.isFinite]

/-- On a finite vertex, the sort key is the x coordinate. -/
theorem point_x_eq_xKey {u : Vertex2D}
    (h : (u.point.x.isFinite && u.point.y.isFinite) = true) :
    u.point.x = F.fin (xKey u) := by
  rw [Bool.and_eq_true] at h
  obtain ⟨q, hq⟩ := isFinite_elim h.1
  rw [hq]
  unfold xKey
  rw [hq]

theorem sortedFiniteByX_finite {vs : List Vertex2D} {u : Vertex2D}
    (h : u ∈ sortedFiniteByX vs) : (u.point.x.isFinite && u.point.y.isFinite) = true := by
  unfold sortedFiniteByX at h
  exact (List.mem_filter.mp (mem_insertionSortT.mp h)).2

theorem sortedFiniteByX_mem {vs : List Vertex2D} {u : Vertex2D}
    (h : u ∈ sortedFiniteByX vs) : u ∈ vs := by
  unfold sortedFiniteByX at h
  exact (List.mem_filter.mp (mem_insertionSortT.mp h)).1

theorem sortedFiniteByX_sorted (vs : List Vertex2D) :
    List.Pairwise (fun a b => decide (xKey a ≤ xKey b) = true) (sortedFiniteByX vs) := by
  unfold sortedFiniteByX
  refine pairwise_insertionSortT ?_ ?_ _
  · intro a b c hab hbc
    rw [decide_eq_true_iff] at hab hbc ⊢
    exact le_trans hab hbc
  · intro a b
    rcases le_total (xKey a) (xKey b) with h | h
    · exact Or.inl (decide_eq_true_iff.mpr h)
    · exact Or.inr (decide_eq_true_iff.mpr h)

/-- What membership in a candidate window gives: membership in the
sorted list and failure of both boundary comparisons. -/
theorem xWindow_elim {sorted : List Vertex2D} {target : F} {v : Vertex2D}
    (hpw : List.Pairwise (fun a b => decide (xKey a ≤ xKey b) = true) sorted)
    (hfin : ∀ u ∈ sorted, (u.point.x.isFinite && u.point.y.isFinite) = true)
    (hv : v ∈ xWindow sorted target) :
    v ∈ sorted ∧
    F.lt v.point.x (F.sub target (F.fin MATCH_TOLERANCE)) = false ∧
    F.lt (F.add target (F.fin MATCH_TOLERANCE)) v.point.x = false := by
  unfold xWindow at hv
  have hdrop : v ∈ sorted.drop
      ((sorted.takeWhile fun u =>
        F.lt u.point.x (F.sub target (F.fin MATCH_TOLERANCE))).length) :=
    List.Sublist.mem hv (List.takeWhile_sublist _)
  have hmem : v ∈ sorted := List.Sublist.mem hdrop (List.drop_sublist _ _)
  have hhi := List.mem_takeWhile_imp hv
  simp only [Bool.not_eq_true'] at hhi
  refine ⟨hmem, ?_, hhi⟩
  refine mem_drop_takeWhile_false hpw ?_ v hdrop
  intro a b ha hb hR hpb
  have hfa := point_x_eq_xKey (hfin a ha)
  have hfb := point_x_eq_xKey (hfin b hb)
  rw [decide_eq_true_iff] at hR
  rw [hfb] at hpb
  rw [hfa]
  cases hlo : F.sub target (F.fin MATCH_TOLERANCE) with
  | nan => rw [hlo] at hpb; simp [F.lt] at hpb
  | inf => simp [F.lt]
  | ninf => rw [hlo] at hpb; simp [F.lt] at hpb
  | fin c =>
    rw [hlo] at hpb
    simp only [F.lt, decide_eq_true_iff] at hpb ⊢
    exact lt_of_le_of_lt hR hpb

/-- Membership elimination for `build_lambda_optimized`: every emitted row
comes from an XY vertex, an XZ window candidate and a YZ window candidate
passing the z test, and has exactly the recorded shape. -/
theorem buildLambda_elim {v_xy v_xz v_yz : View2D} {shift_xy shift_yz : FP2} {row : LambdaRow}
    (h : row ∈ buildLambda v_xy v_xz v_yz shift_xy shift_yz) :
    ∃ v1 ∈ v_xy.vertices,
    ∃ v2 ∈ xWindow (sortedFiniteByX v_xz.vertices) (FP2.add v1.point shift_xy).x,
    ∃ v3 ∈ xWindow (sortedFiniteByX v_yz.vertices)
        (F.sub (FP2.add v1.point shift_xy).y shift_yz.x),
      F.le (F.abs (F.sub v2.point.y (F.add v3.point.y shift_yz.y)))
        (F.fin MATCH_TOLERANCE) = true ∧
      row = ⟨⟨(FP2.add v1.point shift_xy).x, (FP2.add v1.point shift_xy).y, v2.point.y⟩,
        v1.id, v2.id, v3.id⟩ := by
  unfold buildLambda at h
  rw [List.mem_flatMap] at h
  obtain ⟨v1, hv1, h⟩ := h
  rw [List.mem_flatMap] at h
  obtain ⟨v2, hv2, h⟩ := h
  rw [List.mem_filterMap] at h
  obtain ⟨v3, hv3, heq⟩ := h
  refine ⟨v1, hv1, v2, hv2, v3, hv3, ?_⟩
  simp only [FP2.add] at heq
  by_cases ht : F.le (F.abs (F.sub v2.point.y (F.add v3.point.y shift_yz.y)))
      (F.fin MATCH_TOLERANCE) = true
  · rw [if_pos ht] at heq
    exact ⟨ht, (Option.some.inj heq).symm⟩
  · rw [if_neg ht] at heq
    simp at heq

/-- C5 (amended): every Λ row's XZ and YZ source vertices come from the
finiteness-filtered lists — non-finite XZ/YZ vertices are dropped.  (The
XY vertices are NOT filtered; see the counterexample.) -/
theorem C5_xz_yz_filtered (v_xy v_xz v_yz : View2D) (shift_xy shift_yz : FP2)
    (row : LambdaRow) (h : row ∈ buildLambda v_xy v_xz v_yz shift_xy shift_yz) :
    (∃ v2 ∈ v_xz.vertices, v2.id = row.v_xz_id ∧ FP2.finite v2.point = true) ∧
    (∃ v3 ∈ v_yz.vertices, v3.id = row.v_yz_id ∧ FP2.finite v3.point = true) := by
  obtain ⟨v1, hv1, v2, hv2, v3, hv3, ht, hrow⟩ := buildLambda_elim h
  have h2 := xWindow_elim (sortedFiniteByX_sorted _)
    (fun u hu => sortedFiniteByX_finite hu) hv2
  have h3 := xWindow_elim (sortedFiniteByX_sorted _)
    (fun u hu => sortedFiniteByX_finite hu) hv3
  subst hrow
  exact ⟨⟨v2, sortedFiniteByX_mem h2.1, rfl, sortedFiniteByX_finite h2.1⟩,
    ⟨v3, sortedFiniteByX_mem h3.1, rfl, sortedFiniteByX_finite h3.1⟩⟩

theorem C5_xz_yz_filtered_inst :
    (∃ v2 ∈ vXZ0.vertices, v2.id = finRow.v_xz_id ∧ FP2.finite v2.point = true) ∧
    (∃ v3 ∈ vYZ0.vertices, v3.id = finRow.v_yz_id ∧ FP2.finite v3.point = true) :=
  C5_xz_yz_filtered vXYfin vXZ0 vYZ0 zeroShift zeroShift finRow (by decide)

/-- C5 counterexample: the XY vertex list is not filtered — a Λ row is
formed from an XY vertex with a NaN coordinate. -/
theorem C5_cex :
    buildLambda vXYnan vXZ0 vYZ0 zeroShift zeroShift = [nanRow] ∧
    nanRow.v_xy_id = 0 ∧ vXYnan.vertices = [⟨0, ⟨F.nan, F.fin 0⟩⟩] ∧
    FP2.finite ⟨F.nan, F.fin 0⟩ = false := by
  refine ⟨by decide, rfl, rfl, by decide⟩

/-- C3 (amended): every Λ row satisfies the z bound unconditionally (it
is the acceptance test itself); the x and y bounds hold whenever the
shift vectors and the row's XY source vertex are finite. -/
theorem C3_lifter_bounds (v_xy v_xz v_yz : View2D) (shift_xy shift_yz : FP2)
    (row : LambdaRow) (h : row ∈ buildLambda v_xy v_xz v_yz shift_xy shift_yz) :
    ∃ v1 ∈ v_xy.vertices, ∃ v2 ∈ v_xz.vertices, ∃ v3 ∈ v_yz.vertices,
      v1.id = row.v_xy_id ∧ v2.id = row.v_xz_id ∧ v3.id = row.v_yz_id ∧
      F.le (F.abs (F.sub row.p3.z (F.add v3.point.y shift_yz.y)))
        (F.fin MATCH_TOLERANCE) = true ∧
      (FP2.finite shift_xy = true → FP2.finite shift_yz = true →
        FP2.finite v1.point = true →
        F.le (F.abs (F.sub row.p3.x v2.point.x)) (F.fin MATCH_TOLERANCE) = true ∧
        F.le (F.abs (F.sub row.p3.y (F.add v3.point.x shift_yz.x)))
          (F.fin MATCH_TOLERANCE) = true) := by
  obtain ⟨v1, hv1, v2, hv2, v3, hv3, ht, hrow⟩ := buildLambda_elim h
  have h2 := xWindow_elim (sortedFiniteByX_sorted _)
    (fun u hu => sortedFiniteByX_finite hu) hv2
  have h3 := xWindow_elim (sortedFiniteByX_sorted _)
    (fun u hu => sortedFiniteByX_finite hu) hv3
  subst hrow
  refine ⟨v1, hv1, v2, sortedFiniteByX_mem h2.1, v3, sortedFiniteByX_mem h3.1,
    rfl, rfl, rfl, ht, ?_⟩
  intro hsxy hsyz hf1
  rw [FP2.finite, Bool.and_eq_true] at hf1 hsxy hsyz
  obtain ⟨x1, hx1⟩ := isFinite_elim hf1.1
  obtain ⟨y1, hy1⟩ := isFinite_elim hf1.2
  obtain ⟨sx, hsx⟩ := isFinite_elim hsxy.1
  obtain ⟨sy, hsy⟩ := isFinite_elim hsxy.2
  obtain ⟨tx, htx⟩ := isFinite_elim hsyz.1
  have hfin2 := sortedFiniteByX_finite h2.1
  have hfin3 := sortedFiniteByX_finite h3.1
  rw [Bool.and_eq_true] at hfin2 hfin3
  obtain ⟨x2, hx2⟩ := isFinite_elim hfin2.1
  obtain ⟨x3, hx3⟩ := isFinite_elim hfin3.1
  have e1 : (FP2.add v1.point shift_xy).x = F.fin (x1 + sx) := by
    simp [FP2.add, hx1, hsx, F.add]
  have e2 : (FP2.add v1.point shift_xy).y = F.fin (y1 + sy) := by
    simp [FP2.add, hy1, hsy, F.add]
  have e3 : F.sub (FP2.add v1.point shift_xy).y shift_yz.x = F.fin (y1 + sy + -tx) := by
    simp [e2, htx, F.sub, F.add, F.neg]
  constructor
  · have hlo := h2.2.1
    have hhi := h2.2.2
    rw [e1, hx2] at hlo hhi
    simp only [F.sub, F.add, F.neg, F.lt] at hlo hhi
    rw [decide_eq_false_iff_not] at hlo hhi
    dsimp only
    rw [e1, hx2]
    simp only [F.sub, F.add, F.neg, F.abs, F.le]
    rw [decide_eq_true_iff, abs_le]
    constructor <;> linarith
  · have hlo := h3.2.1
    have hhi := h3.2.2
    rw [e3, hx3] at hlo hhi
    simp only [F.sub, F.add, F.neg, F.lt] at hlo hhi
    rw [decide_eq_false_iff_not] at hlo hhi
    dsimp only
    rw [e2, hx3, htx]
    simp only [F.sub, F.add, F.neg, F.abs, F.le]
    rw [decide_eq_true_iff, abs_le]
    constructor <;> linarith

theorem C3_lifter_bounds_inst :
    ∃ v1 ∈ vXYfin.vertices, ∃ v2 ∈ vXZ0.vertices, ∃ v3 ∈ vYZ0.vertices,
      v1.id = finRow.v_xy_id ∧ v2.id = finRow.v_xz_id ∧ v3.id = finRow.v_yz_id ∧
      F.le (F.abs (F.sub finRow.p3.z (F.add v3.point.y zeroShift.y)))
        (F.fin MATCH_TOLERANCE) = true ∧
      (FP2.finite zeroShift = true → FP2.finite zeroShift = true →
        FP2.finite v1.point = true →
        F.le (F.abs (F.sub finRow.p3.x v2.point.x)) (F.fin MATCH_TOLERANCE) = true ∧
        F.le (F.abs (F.sub finRow.p3.y (F.add v3.point.x zeroShift.x)))
          (F.fin MATCH_TOLERANCE) = true) :=
  C3_lifter_bounds vXYfin vXZ0 vYZ0 zeroShift zeroShift finRow (by decide)

/-- C3 counterexample: the Λ row formed from the NaN XY vertex violates
the first bound — `|p.x − v_xz.point.x| ≤ MATCH_TOLERANCE` is false (the
comparison evaluates over NaN), where the matched XZ vertex is at x = 0. -/
theorem C3_cex :
    buildLambda vXYnan vXZ0 vYZ0 zeroShift zeroShift = [nanRow] ∧
    nanRow.v_xz_id = 0 ∧ vXZ0.vertices = [⟨0, ⟨F.fin 0, F.fin 0⟩⟩] ∧
    F.le (F.abs (F.sub nanRow.p3.x (F.fin 0))) (F.fin MATCH_TOLERANCE) = false := by
  refine ⟨by decide, rfl, rfl, by decide⟩
